import Mathlib

/-!
Shallow embedding of the configuration-resolution scripts
`scripts/prepare_tf_branch_deploy.py` (the stricter, path-resolution-aware
variant) and `action/scripts/prepare_terrachops.py` (the earlier variant)
of the test-tf-branch-deploy repository, together with proofs about the
merge algorithm, the path resolver, the dynamic-flag sanitizer and the
output emitter.

Conventions of the embedding:
* Python `pathlib.PurePosixPath` values are `FsPath` (an absolute flag plus
  the list of parts; `Path(...)` construction drops empty and `"."` parts).
* The filesystem is `Fs`: the sets of existing files and directories, given
  by their lexically normalized absolute part lists ( `os.stat` resolves
  `..` components, which `FsPath.normSegments` performs lexically).
* The parsed YAML document is `YVal`; `dict.get(k, default)` chains are
  `YVal.dgetMap` / `Option.getD`.  Where the Python code would raise an
  `AttributeError`/`TypeError` on an ill-typed document, the theorems carry
  shape hypotheses restricting to documents on which the embedding agrees
  with the code.
* `sys.exit(1)` via `error_exit`, and uncaught exceptions, are `Except.error`
  carrying the message; a run that reaches the output-writing block is
  `Except.ok` carrying the four outputs.  Nothing is appended to the
  GITHUB_OUTPUT channel on an `Except.error` run, because the writes are the
  final step of `main`.
-/

/-- A POSIX path as modelled by `pathlib.PurePosixPath`: an absolute-path flag
and the parts.  Construction from a string drops empty parts and `"."`. -/
structure FsPath where
  absolute : Bool
  segments : List String
deriving DecidableEq, Repr

/-- Test `s.startswith(pre)` of Python, on the character lists (the
standard-library `String.startsWith` is not kernel-reducible). -/
def strStartsWith (s pre : String) : Bool :=
  List.isPrefixOf pre.data s.data

/-- Splitting a character list at every slash, keeping empty pieces, as
`s.split(SLASH)` does in the `pathlib` parser. -/
def splitSegs : List Char → List (List Char)
  | [] => [[]]
  | c :: rest =>
    match splitSegs rest with
    | [] => [[]]
    | seg :: segs => if c = '/' then [] :: seg :: segs else (c :: seg) :: segs

/-- Construction `pathlib.Path(s)` for a POSIX string: absolute iff it starts with `/`;
parts are the slash-separated components with empty and `"."` parts dropped. -/
def FsPath.ofString (s : String) : FsPath :=
  { absolute := match s.data with
      | '/' :: _ => true
      | _ => false
    segments := ((splitSegs s.data).map String.mk).filter (fun seg => seg ≠ "" && seg ≠ ".") }

/-- Rendering `str(p)` of a `pathlib.PurePosixPath`: `"."` for the empty relative path,
`"/"` for the root, otherwise the slash-joined parts. -/
def FsPath.toString (p : FsPath) : String :=
  if p.segments.isEmpty then (if p.absolute then "/" else ".")
  else (if p.absolute then "/" else "") ++ String.intercalate "/" p.segments

/-- Joining `base / p` on `pathlib` paths: an absolute right operand replaces the
left one, otherwise the parts are concatenated. -/
def FsPath.join (base p : FsPath) : FsPath :=
  if p.absolute then p else { absolute := base.absolute, segments := base.segments ++ p.segments }

/-- Operation `q.relative_to(base)` on `pathlib` paths: defined exactly when `base` is a
lexical prefix of `q` (same anchor and a prefix of the parts); `none` models
the `ValueError` raised otherwise. -/
def FsPath.relativeTo (q base : FsPath) : Option FsPath :=
  if q.absolute = base.absolute && base.segments.isPrefixOf q.segments then
    some { absolute := false, segments := q.segments.drop base.segments.length }
  else none

/-- Lexical normalization of a part list: drops `"."` parts and resolves
`".."` against the previous part, as the operating system does when an
absolute path is passed to `stat`. -/
def FsPath.normSegments (p : FsPath) : List String :=
  p.segments.foldl (fun acc s => if s = "." then acc else if s = ".." then acc.dropLast else acc ++ [s]) []

/-- The filesystem visible to the scripts: existing regular files and existing
directories, each named by normalized absolute parts. -/
structure Fs where
  files : List (List String)
  dirs : List (List String)
deriving DecidableEq, Repr

/-- Test `p.exists()` for an absolute path `p`. -/
def Fs.existsPath (fs : Fs) (p : FsPath) : Bool :=
  fs.files.contains p.normSegments || fs.dirs.contains p.normSegments

/-- Test `p.is_dir()` for an absolute path `p`. -/
def Fs.isDir (fs : Fs) (p : FsPath) : Bool :=
  fs.dirs.contains p.normSegments

/-- A parsed YAML document as returned by `yaml.safe_load`: scalars, sequences
and mappings.  Mappings are association lists with distinct keys. -/
inductive YVal where
  | null : YVal
  | b : Bool → YVal
  | n : Int → YVal
  | s : String → YVal
  | list : List YVal → YVal
  | map : List (String × YVal) → YVal

/-- Key lookup in a mapping; `none` on a missing key and on a non-mapping
value (the Python code would raise on the latter, which the theorems exclude
by shape hypotheses). -/
def YVal.lookup : YVal → String → Option YVal
  | .map kvs, k => kvs.lookup k
  | _, _ => none

/-- Access `d.get(k, DEFAULT_EMPTY_DICT)` as used by the scripts for every nested
section access. -/
def YVal.dgetMap (v : YVal) (k : String) : YVal :=
  (v.lookup k).getD (YVal.map [])

/-- Python truthiness of a YAML value, as applied by `if inherit:`. -/
def YVal.truthy : YVal → Bool
  | .null => false
  | .b bv => bv
  | .n iv => iv != 0
  | .s sv => sv ≠ ""
  | .list xs => !xs.isEmpty
  | .map kvs => !kvs.isEmpty

/-- Coercion `str(v)` of a scalar YAML value, used only inside error messages and by
the terrachops f-string coercion; the rendering of sequence and mapping
values (Python would use `repr`) is abbreviated, no claim depends on it. -/
def YVal.pyStr : YVal → String
  | .null => "None"
  | .b bv => cond bv "True" "False"
  | .n iv => ToString.toString iv
  | .s sv => sv
  | .list _ => "[...]"
  | .map _ => "<dict>"

/-- Helper for stating theorems: the YAML list holding exactly the given
strings. -/
def strList (xs : List String) : YVal :=
  YVal.list (xs.map YVal.s)

/-! The `shlex` tokenizer.

`shlex.split(s)` (POSIX mode, `whitespace_split=True`, no comment
characters), embedded as a state machine over the character list.  `none`
models the `ValueError` raised on an unclosed quotation or a trailing
escape character. -/

/-- The `shlex` whitespace characters. -/
def shWhitespace (c : Char) : Bool :=
  c == ' ' || c == '\t' || c == '\r' || c == '\n'

/-- Lexer modes: between tokens, inside a word, inside single or double
quotes, and after an escape character outside or inside double quotes. -/
inductive ShMode where
  | start | word | squote | dquote | escWord | escDquote
deriving DecidableEq, Repr

/-- One pass of `shlex.read_token` iterated over the whole input: `mode` is
the lexer state, `q` records whether the current token saw a quote (so that
an empty quoted token is still emitted), `acc` the characters of the current
token. -/
def shlexAux : ShMode → Bool → List Char → List Char → Option (List String)
  | .start, _, _, [] => some []
  | .start, _, _, c :: cs =>
    if shWhitespace c then shlexAux .start false [] cs
    else if c == '\\' then shlexAux .escWord false [] cs
    else if c == '\'' then shlexAux .squote true [] cs
    else if c == '"' then shlexAux .dquote true [] cs
    else shlexAux .word false [c] cs
  | .word, q, acc, [] => if acc.isEmpty && !q then some [] else some [String.mk acc]
  | .word, q, acc, c :: cs =>
    if shWhitespace c then
      if acc.isEmpty && !q then shlexAux .start false [] cs
      else (shlexAux .start false [] cs).map (String.mk acc :: ·)
    else if c == '\'' then shlexAux .squote true acc cs
    else if c == '"' then shlexAux .dquote true acc cs
    else if c == '\\' then shlexAux .escWord q acc cs
    else shlexAux .word q (acc ++ [c]) cs
  | .squote, _, _, [] => none
  | .squote, _, acc, c :: cs =>
    if c == '\'' then shlexAux .word true acc cs
    else shlexAux .squote true (acc ++ [c]) cs
  | .dquote, _, _, [] => none
  | .dquote, _, acc, c :: cs =>
    if c == '"' then shlexAux .word true acc cs
    else if c == '\\' then shlexAux .escDquote true acc cs
    else shlexAux .dquote true (acc ++ [c]) cs
  | .escWord, _, _, [] => none
  | .escWord, q, acc, c :: cs => shlexAux .word q (acc ++ [c]) cs
  | .escDquote, _, _, [] => none
  | .escDquote, q, acc, c :: cs =>
    if c == '"' || c == '\\' then shlexAux .dquote q (acc ++ [c]) cs
    else shlexAux .dquote q (acc ++ ['\\', c]) cs

/-- Function `shlex.split(dynamic_params_str)`. -/
def shlexSplit (s : String) : Option (List String) :=
  shlexAux .start false [] s.data

/-- The characters `shlex.quote` leaves unquoted: ASCII letters, digits,
underscore, and the punctuation at-sign, percent, plus, equals, colon,
comma, dot, slash, dash. -/
def shlexSafeChar (c : Char) : Bool :=
  ('a' ≤ c && c ≤ 'z') || ('A' ≤ c && c ≤ 'Z') || ('0' ≤ c && c ≤ '9') ||
  c == '_' || c == '@' || c == '%' || c == '+' || c == '=' || c == ':' ||
  c == ',' || c == '.' || c == '/' || c == '-'

/-- Replacement `s.replace(SQUOTE, SQUOTE + DQUOTE + SQUOTE + DQUOTE + SQUOTE)` on the
character list, the body of the quoted form of `shlex.quote`. -/
def shlexQuoteEscape (s : List Char) : List Char :=
  s.flatMap (fun c => if c == '\'' then ['\'', '"', '\'', '"', '\''] else [c])

/-- Function `shlex.quote(s)`. -/
def shlexQuote (s : String) : String :=
  if s = "" then "''"
  else if s.data.all shlexSafeChar then s
  else String.mk ('\'' :: shlexQuoteEscape s.data ++ ['\''])

/-- Function `SPACE.join(xs)`. -/
def joinSpace : List String → String
  | [] => ""
  | [a] => a
  | a :: b :: rest => a ++ " " ++ joinSpace (b :: rest)

/-! The dynamic-flag sanitizer of `prepare_tf_branch_deploy.py`
(lines 244-263). -/

/-- Constant `allowed_dynamic_flags_prefixes`: the fixed allow-list of flag
shapes admitted from the free-text dynamic-parameters string. -/
def allowedDynamicFlagList : List String :=
  ["--target=", "-target=", "-var=", "--var="]

/-- Decision `any(param.startswith(p) for p in allowed_dynamic_flags_prefixes)`
made by the inner loop over the allow-list. -/
def isAllowedDynamic (param : String) : Bool :=
  allowedDynamicFlagList.any (fun pre => strStartsWith param pre)

/-- The warning emitted for a rejected dynamic token, naming the token. -/
def dynWarnMsg (param : String) : String :=
  "Ignoring potentially malicious or unsupported dynamic flag from comment: '"
    ++ param
    ++ "'. Only flags starting with '--target=, -target=, -var=, --var=' are allowed."

/-- The sanitizing loop over the parsed tokens: admitted flags in input
order, paired with the warnings emitted for the dropped tokens, also in
input order. -/
def sanitizeDynamicFlags : List String → List String × List String
  | [] => ([], [])
  | p :: ps =>
    let rest := sanitizeDynamicFlags ps
    if isAllowedDynamic p then (p :: rest.1, rest.2) else (rest.1, dynWarnMsg p :: rest.2)

/-! Python string helpers used by the scripts. -/

/-- Python `str.isspace` on a character (the set `str.strip()` and
`str.split()` treat as whitespace). -/
def pyIsSpace (c : Char) : Bool :=
  c == ' ' || c == '\t' || c == '\n' || c == '\r' || c == '\x0b' || c == '\x0c' ||
  c == '\x1c' || c == '\x1d' || c == '\x1e' || c == '\x1f' || c == '\x85' ||
  c == '\u00a0' || c == '\u1680' || ('\u2000' ≤ c && c ≤ '\u200a') ||
  c == '\u2028' || c == '\u2029' || c == '\u202f' || c == '\u205f' || c == '\u3000'

/-- Truthiness of `s.strip()`: the string has some non-whitespace character. -/
def pyStripNonempty (s : String) : Bool :=
  s.data.any (fun c => !(pyIsSpace c))

/-- Loop of Python `s.split()` with no argument: `acc` is the current run
of non-whitespace characters. -/
def pySplitWsAux (acc : List Char) : List Char → List String
  | [] => if acc.isEmpty then [] else [String.mk acc]
  | c :: cs =>
    if pyIsSpace c then
      if acc.isEmpty then pySplitWsAux [] cs else String.mk acc :: pySplitWsAux [] cs
    else pySplitWsAux (acc ++ [c]) cs

/-- Python `s.split()` with no argument: maximal runs of non-whitespace. -/
def pySplitWs (s : String) : List String :=
  pySplitWsAux [] s.data

/-! The path resolver `get_relative_path_for_tf` of
`prepare_tf_branch_deploy.py` (lines 82-118). -/

/-- Error for an absolute declared path that does not exist (line 98). -/
def absMissingMsg (orig : String) : String :=
  "Configuration Error: Absolute file path '" ++ orig ++ "' does not exist."

/-- Error for a declared path found at none of the expected locations
(line 118). -/
def missingFileMsg (orig : String) : String :=
  "Configuration Error: File '" ++ orig
    ++ "' specified in .tf-branch-deploy.yml not found relative to working directory or repository root."

/-- Resolver for one declared path: absolute paths must exist and are kept;
otherwise the path is tried relative to the working directory, then relative
to the repository root (re-expressed relative to the working directory when
that relation is defined, kept absolute with a warning when not), and the
run fails when the file exists nowhere. -/
def get_relative_path_for_tf (orig : String) (baseRepoPath tfWorkingDirAbsolute : FsPath)
    (fs : Fs) : Except String String :=
  let p := FsPath.ofString orig
  if p.absolute then
    if fs.existsPath p then Except.ok p.toString
    else Except.error (absMissingMsg orig)
  else
    let absInWd := tfWorkingDirAbsolute.join p
    if fs.existsPath absInWd then
      match absInWd.relativeTo tfWorkingDirAbsolute with
      | some rel => Except.ok rel.toString
      | none => Except.error "ValueError: path is not relative to the working directory"
    else
      let absInRepo := baseRepoPath.join p
      if fs.existsPath absInRepo then
        match absInRepo.relativeTo tfWorkingDirAbsolute with
        | some rel => Except.ok rel.toString
        | none => Except.ok absInRepo.toString
      else Except.error (missingFileMsg orig)

/-! The argument merger: `process_args` (lines 42-80) and the two inline
path-category blocks of `main` (lines 200-215 and 220-234) of
`prepare_tf_branch_deploy.py`. -/

/-- Lookup of `environments.<env>.<key>.inherit` (absent means inherit). -/
def inheritSetting (config : YVal) (envName keyName : String) : Option YVal :=
  (((config.dgetMap "environments").dgetMap envName).dgetMap keyName).lookup "inherit"

/-- Value of `.get("inherit", True)` put through Python truthiness. -/
def inheritFlag (config : YVal) (envName keyName : String) : Bool :=
  match inheritSetting config envName keyName with
  | some v => v.truthy
  | none => true

/-- Lookup of `defaults.<key>.args` with default `[]`. -/
def defaultsArgsVal (config : YVal) (keyName : String) : YVal :=
  (((config.dgetMap "defaults").dgetMap keyName).lookup "args").getD (YVal.list [])

/-- Lookup of `environments.<env>.<key>.args` with default `[]`. -/
def envArgsVal (config : YVal) (envName keyName : String) : YVal :=
  ((((config.dgetMap "environments").dgetMap envName).dgetMap keyName).lookup "args").getD (YVal.list [])

/-- Lookup of `defaults.<key>.paths` with default `[]`. -/
def defaultsPathsVal (config : YVal) (keyName : String) : YVal :=
  (((config.dgetMap "defaults").dgetMap keyName).lookup "paths").getD (YVal.list [])

/-- Lookup of `environments.<env>.<key>.paths` with default `[]`. -/
def envPathsVal (config : YVal) (envName keyName : String) : YVal :=
  ((((config.dgetMap "environments").dgetMap envName).dgetMap keyName).lookup "paths").getD (YVal.list [])

/-- The per-item loop of `process_args`: each item must be a string and gets
the prefix prepended; `ctx` names the configuration location in the error. -/
def validateStrArgs (items : List YVal) (pfx ctx : String) : Except String (List String) :=
  match items with
  | [] => Except.ok []
  | YVal.s a :: rest => (validateStrArgs rest pfx ctx).map (fun r => (pfx ++ a) :: r)
  | item :: _ =>
    Except.error ("Configuration Error: Argument '" ++ item.pyStr ++ "' in '" ++ ctx ++ "' must be a string.")

/-- Function `process_args(config, env_name, key_name, arg_prefix)`: the
inherited defaults (when `inherit` is truthy or absent) followed by the
environment-specific items, each with the prefix applied. -/
def process_args (config : YVal) (envName keyName pfx : String) : Except String (List String) := do
  let defaultPart ←
    if inheritFlag config envName keyName then
      match defaultsArgsVal config keyName with
      | YVal.list items => validateStrArgs items pfx (".defaults." ++ keyName ++ ".args")
      | _ => Except.error ("Configuration Error: '.defaults." ++ keyName ++ ".args' must be a list.")
    else Except.ok []
  match envArgsVal config envName keyName with
  | YVal.list items => do
    let envPart ← validateStrArgs items pfx (".environments." ++ envName ++ "." ++ keyName ++ ".args")
    Except.ok (defaultPart ++ envPart)
  | _ =>
    Except.error ("Configuration Error: '.environments." ++ envName ++ "." ++ keyName ++ ".args' must be a list.")

/-- The per-item loop of the inline path-category blocks: each item must be a
string, is resolved by `get_relative_path_for_tf`, and gets the category
prefix prepended. -/
def resolvePathItems (items : List YVal) (pfx ctx : String) (root wd : FsPath) (fs : Fs) :
    Except String (List String) :=
  match items with
  | [] => Except.ok []
  | YVal.s a :: rest => do
    let r ← get_relative_path_for_tf a root wd fs
    let others ← resolvePathItems rest pfx ctx root wd fs
    Except.ok ((pfx ++ r) :: others)
  | item :: _ =>
    Except.error ("Configuration Error: Path '" ++ item.pyStr ++ "' in '" ++ ctx ++ "' must be a string.")

/-- The inline path-category block of `main`, one instance per path category
(`backend-configs` feeding init with prefix `-backend-config=`, `var-files`
feeding plan with prefix `-var-file=`): inherited default paths (when
`inherit` is truthy or absent) followed by environment-specific paths, each
resolved and prefixed. -/
def buildPathArgs (config : YVal) (envName keyName pfx : String) (root wd : FsPath) (fs : Fs) :
    Except String (List String) := do
  let defaultPart ←
    if inheritFlag config envName keyName then
      match defaultsPathsVal config keyName with
      | YVal.list items => resolvePathItems items pfx (".defaults." ++ keyName ++ ".paths") root wd fs
      | _ => Except.error ("Configuration Error: '.defaults." ++ keyName ++ ".paths' must be a list.")
    else Except.ok []
  match envPathsVal config envName keyName with
  | YVal.list items => do
    let envPart ← resolvePathItems items pfx (".environments." ++ envName ++ "." ++ keyName ++ ".paths") root wd fs
    Except.ok (defaultPart ++ envPart)
  | _ =>
    Except.error ("Configuration Error: '.environments." ++ envName ++ "." ++ keyName ++ ".paths' must be a list.")

/-! The `main` pipeline of `prepare_tf_branch_deploy.py` (lines 121-285). -/

/-- State of the GITHUB_OUTPUT environment variable as checked at lines
146-150: unset, set but with a missing parent directory, or usable. -/
inductive GithubOutputState where
  | unset | parentMissing | ok
deriving DecidableEq, Repr

/-- Inputs of one run that do not include the dynamic-parameters string:
the two other positional arguments, the loaded configuration document (an
absent or empty configuration file loads as the empty mapping), the
GITHUB_OUTPUT state, the process working directory `os.getcwd()` (the
repository checkout), the GITHUB_WORKSPACE path, and the filesystem. -/
structure CoreInput where
  defaultWorkingDir : String
  envName : String
  config : YVal
  githubOutput : GithubOutputState
  cwd : FsPath
  workspace : FsPath
  fs : Fs

/-- Everything `main` computes before the dynamic flags are layered on. -/
structure ResolvedCore where
  workingDir : String
  initArgs : List String
  planBase : List String
  applyArgs : List String
deriving DecidableEq, Repr

/-- The four values written to the output channel (as token lists; the
emitted strings are `Outputs.initArgsStr` and friends below). -/
structure Outputs where
  workingDir : String
  initArgs : List String
  planArgs : List String
  applyArgs : List String
deriving DecidableEq, Repr

/-- Membership test `env_name not in config.get("environments", {})`
(line 175), negated. -/
def envMember (config : YVal) (name : String) : Bool :=
  match config.dgetMap "environments" with
  | YVal.map kvs => (kvs.lookup name).isSome
  | _ => false

/-- Lookup of `environments.<env>.working-directory` (line 179 reads it with
the caller-supplied default). -/
def wdSetting (config : YVal) (envName : String) : Option YVal :=
  ((config.dgetMap "environments").dgetMap envName).lookup "working-directory"

/-- Normalization of the working directory (lines 181-185): strip one
leading `./`, then collapse a bare `.` to the empty string. -/
def normWd (s : String) : String :=
  let s1 := if strStartsWith s "./" then s.drop 2 else s
  if s1 = "." then "" else s1

/-- Error of line 176. -/
def unknownEnvMsg (envName : String) : String :=
  "Configuration Error: Environment '" ++ envName ++ "' not found in '.tf-branch-deploy.yml'."

/-- Error of line 190; `rel` is the normalized configured value and
`resolved` the string of the joined absolute path. -/
def invalidWdMsg (rel resolved : String) : String :=
  "Terraform working directory '" ++ rel ++ "' (resolved to '" ++ resolved
    ++ "') not found or is not a directory. Please check 'working-directory' in '.tf-branch-deploy.yml'."

/-- Continuation of `main` once the effective working-directory string is
known (lines 181-241): normalize it, require it to be an existing directory,
then assemble the init, plan and apply argument lists in source order. -/
def mainCoreWd (c : CoreInput) (wdStr : String) : Except String ResolvedCore :=
  let wdNorm := normWd wdStr
  let tfAbs := c.cwd.join (FsPath.ofString wdNorm)
  if c.fs.isDir tfAbs then do
    let initPaths ← buildPathArgs c.config c.envName "backend-configs" "-backend-config=" c.workspace tfAbs c.fs
    let initExtra ← process_args c.config c.envName "init-args" ""
    let planPaths ← buildPathArgs c.config c.envName "var-files" "-var-file=" c.workspace tfAbs c.fs
    let planExtra ← process_args c.config c.envName "plan-args" ""
    let applyArgs ← process_args c.config c.envName "apply-args" ""
    Except.ok { workingDir := wdNorm, initArgs := initPaths ++ initExtra,
                planBase := planPaths ++ planExtra, applyArgs := applyArgs }
  else Except.error (invalidWdMsg wdNorm tfAbs.toString)

/-- Run of `main` up to (and excluding) the dynamic-flag layering: input
validation (lines 138-150), environment validation (line 175), working
directory (lines 179-193) and the static argument lists (lines 196-241).
The error branches appear in source order. -/
def mainCore (c : CoreInput) : Except String ResolvedCore :=
  if pyStripNonempty c.defaultWorkingDir then
    if pyStripNonempty c.envName then
      match c.githubOutput with
      | GithubOutputState.unset =>
        Except.error "GITHUB_OUTPUT environment variable not set. Cannot write outputs."
      | GithubOutputState.parentMissing =>
        Except.error "Parent directory for GITHUB_OUTPUT does not exist or is not accessible."
      | GithubOutputState.ok =>
        if c.envName ≠ "" && c.envName ≠ "production" && !(envMember c.config c.envName) then
          Except.error (unknownEnvMsg c.envName)
        else
          match wdSetting c.config c.envName with
          | some (YVal.s w) => mainCoreWd c w
          | none => mainCoreWd c c.defaultWorkingDir
          | some _ => Except.error "AttributeError: the working-directory value is not a string"
    else Except.error "Invalid or empty environment name argument provided to script."
  else Except.error "Invalid or empty working directory argument provided to script."

/-- Full input of one run: the core input plus the dynamic-parameters
string. -/
structure MainInput where
  core : CoreInput
  dynamicParams : String

/-- The whole run of the `main` function of `prepare_tf_branch_deploy.py`:
the core pipeline, then the dynamic-parameters string is tokenized (an
unclosed quotation raises and aborts the run), sanitized, and the admitted
flags are appended to the plan argument list (line 263).  An `Except.ok`
result carries exactly what the output-writing block (lines 270-275) appends
to GITHUB_OUTPUT. -/
def runMain (i : MainInput) : Except String Outputs := do
  let core ← mainCore i.core
  match shlexSplit i.dynamicParams with
  | none => Except.error "ValueError: No closing quotation"
  | some toks =>
    let flags := (sanitizeDynamicFlags toks).1
    Except.ok { workingDir := core.workingDir, initArgs := core.initArgs,
                planArgs := core.planBase ++ flags, applyArgs := core.applyArgs }

/-- Emitted `init_args` value (line 266): joined shell-quoted tokens. -/
def Outputs.initArgsStr (o : Outputs) : String :=
  joinSpace (o.initArgs.map shlexQuote)

/-- Emitted `plan_args` value (line 267): joined shell-quoted tokens. -/
def Outputs.planArgsStr (o : Outputs) : String :=
  joinSpace (o.planArgs.map shlexQuote)

/-- Emitted `apply_args` value (line 268): joined shell-quoted tokens. -/
def Outputs.applyArgsStr (o : Outputs) : String :=
  joinSpace (o.applyArgs.map shlexQuote)

/-! The earlier variant `action/scripts/prepare_terrachops.py`. -/

/-- Function `os.path.relpath(p, start)` under current directory `cwd`:
both are made absolute (joined to `cwd` and lexically normalized), a common
prefix is removed, and the remainder of `start` is climbed with `..`. -/
def pyRelpath (p start cwd : FsPath) : String :=
  let ap := (cwd.join p).normSegments
  let bp := (cwd.join start).normSegments
  let rel := List.replicate (bp.length - (commonPrefixLen ap bp)) ".." ++ ap.drop (commonPrefixLen ap bp)
  if rel.isEmpty then "." else String.intercalate "/" rel
where
  commonPrefixLen : List String → List String → Nat
    | a :: as, b :: bs => if a = b then commonPrefixLen as bs + 1 else 0
    | _, _ => 0

/-- The per-item loop of terrachops `process_paths`: every item must exist
(checked relative to the current directory), and is rewritten relative to
the working directory by `os.path.relpath`; `label` is `Default` or
`Environment` as in the two loops. -/
def tcResolveItems (items : List YVal) (pfx label : String) (workingDir : String)
    (cwd : FsPath) (fs : Fs) : Except String (List String) :=
  match items with
  | [] => Except.ok []
  | YVal.s a :: rest =>
    let p := FsPath.ofString a
    if fs.existsPath (cwd.join p) then
      (tcResolveItems rest pfx label workingDir cwd fs).map
        (fun others => (pfx ++ pyRelpath p (FsPath.ofString workingDir) cwd) :: others)
    else
      Except.error ("Configuration Error: " ++ label ++ " file '" ++ a
        ++ "' specified in .terrachops.yml not found in repository root.")
  | _ :: _ => Except.error "TypeError: argument should be a str or an os.PathLike object"

/-- Terrachops `process_paths(config, env_name, key_name, arg_prefix,
working_dir)` (lines 37-63). -/
def tc_process_paths (config : YVal) (envName keyName pfx workingDir : String)
    (cwd : FsPath) (fs : Fs) : Except String (List String) := do
  let defaultPart ←
    if inheritFlag config envName keyName then
      match defaultsPathsVal config keyName with
      | YVal.list items => tcResolveItems items pfx "Default" workingDir cwd fs
      | _ => Except.error ("Configuration Error: '.defaults." ++ keyName ++ ".paths' must be a list.")
    else Except.ok []
  match envPathsVal config envName keyName with
  | YVal.list items => do
    let envPart ← tcResolveItems items pfx "Environment" workingDir cwd fs
    Except.ok (defaultPart ++ envPart)
  | _ =>
    Except.error ("Configuration Error: '.environments." ++ envName ++ "." ++ keyName ++ ".paths' must be a list.")

/-- Terrachops `process_args` (lines 19-35): like `process_args` of the main
variant but items are coerced by the f-string instead of being validated. -/
def tc_process_args (config : YVal) (envName keyName pfx : String) : Except String (List String) := do
  let defaultPart ←
    if inheritFlag config envName keyName then
      match defaultsArgsVal config keyName with
      | YVal.list items => Except.ok (items.map (fun it => pfx ++ it.pyStr))
      | _ => Except.error ("Configuration Error: '.defaults." ++ keyName ++ ".args' must be a list.")
    else Except.ok []
  match envArgsVal config envName keyName with
  | YVal.list items => Except.ok (defaultPart ++ items.map (fun it => pfx ++ it.pyStr))
  | _ =>
    Except.error ("Configuration Error: '.environments." ++ envName ++ "." ++ keyName ++ ".args' must be a list.")

/-- The terrachops allow-list (line 108): bare prefixes, no equals sign. -/
def tcAllowedDynamic : List String := ["--target", "-var"]

/-- The terrachops dynamic-flag loop (lines 109-113): whitespace split, one
append per matching allow-list entry, no warning. -/
def tc_dynamic (s : String) : List String :=
  (pySplitWs s).flatMap
    (fun p => (tcAllowedDynamic.filter (fun a => strStartsWith p a)).map (fun _ => p))

/-- Inputs of one terrachops run. -/
structure TcInput where
  defaultWorkingDir : String
  envName : String
  dynamicParams : String
  config : YVal
  githubOutputOk : Bool
  cwd : FsPath
  fs : Fs

/-- Output record of one terrachops run; the emitted strings are plain space
joins without shell quoting (lines 118-120). -/
structure TcOutputs where
  workingDir : String
  initArgs : List String
  planArgs : List String
  applyArgs : List String
deriving DecidableEq, Repr

/-- Emitted terrachops `plan_args` value (line 119): plain space join. -/
def TcOutputs.planArgsStr (o : TcOutputs) : String :=
  joinSpace o.planArgs

/-- The whole run of `prepare_terrachops.py` (lines 66-133): no working
directory normalization or existence check, paths resolved by
`os.path.relpath`, dynamic flags filtered by bare prefixes. -/
def tc_main (i : TcInput) : Except String TcOutputs := do
  if i.githubOutputOk then
    if i.envName ≠ "" && i.envName ≠ "production" && !(envMember i.config i.envName) then
      Except.error ("Configuration Error: Environment '" ++ i.envName ++ "' not found in .terrachops.yml.")
    else do
      let workingDir ←
        match wdSetting i.config i.envName with
        | some (YVal.s w) => Except.ok w
        | none => Except.ok i.defaultWorkingDir
        | some _ => Except.error "TypeError: the working-directory value is not a string"
      let initPaths ← tc_process_paths i.config i.envName "backend-configs" "-backend-config=" workingDir i.cwd i.fs
      let initExtra ← tc_process_args i.config i.envName "init-args" ""
      let planPaths ← tc_process_paths i.config i.envName "var-files" "-var-file=" workingDir i.cwd i.fs
      let planExtra ← tc_process_args i.config i.envName "plan-args" ""
      let applyArgs ← tc_process_args i.config i.envName "apply-args" ""
      Except.ok { workingDir := workingDir, initArgs := initPaths ++ initExtra,
                  planArgs := planPaths ++ planExtra ++ tc_dynamic i.dynamicParams,
                  applyArgs := applyArgs }
  else Except.error "GITHUB_OUTPUT environment variable not set or invalid."



/-- Shape of an optional YAML value on which the scripts may call `.get` or
use `in`: absent or a mapping.  Any other shape makes the Python code raise
before producing a result, which the embedding does not model; theorems
about configuration access carry these hypotheses. -/
def YVal.mapOrAbsent : Option YVal → Prop
  | none => True
  | some (YVal.map _) => True
  | _ => False

/-- All the shape conditions under which the embedded configuration access
for one environment and one category agrees with the Python attribute
accesses: the document and every section on the access path is a mapping
where present. -/
def configShaped (config : YVal) (envName keyName : String) : Prop :=
  (∃ kvs, config = YVal.map kvs) ∧
  YVal.mapOrAbsent (config.lookup "environments") ∧
  YVal.mapOrAbsent ((config.dgetMap "environments").lookup envName) ∧
  YVal.mapOrAbsent (((config.dgetMap "environments").dgetMap envName).lookup keyName) ∧
  YVal.mapOrAbsent (config.lookup "defaults") ∧
  YVal.mapOrAbsent ((config.dgetMap "defaults").lookup keyName)


/-! Concrete fixtures used by witnesses and counterexamples. -/

/-- A filesystem with just the checkout root directory. -/
def witnessFs : Fs := { files := [], dirs := [["repo"]] }

/-- A green-path core input: production environment, empty configuration. -/
def witnessCore : CoreInput :=
  { defaultWorkingDir := ".", envName := "production", config := YVal.map [],
    githubOutput := GithubOutputState.ok, cwd := FsPath.ofString "/repo",
    workspace := FsPath.ofString "/repo", fs := witnessFs }

/-- Configuration used by the C2 witness: defaults and a `dev` environment
with both an argument category and a path category populated. -/
def claim2Cfg : YVal :=
  YVal.map
    [("defaults", YVal.map
        [("plan-args", YVal.map [("args", YVal.list [YVal.s "-a"])]),
         ("var-files", YVal.map [("paths", YVal.list [YVal.s "v.tfvars"])])]),
     ("environments", YVal.map
        [("dev", YVal.map
            [("plan-args", YVal.map [("args", YVal.list [YVal.s "-b"])]),
             ("var-files", YVal.map [("paths", YVal.list [YVal.s "w.tfvars"])])])])]

/-- Filesystem for the C2 witness: both declared files exist in the working
directory. -/
def claim2Fs : Fs :=
  { files := [["repo", "v.tfvars"], ["repo", "w.tfvars"]], dirs := [["repo"]] }

/-- Configuration used by the C3 witness: `dev` switches inheritance off on
an argument category and on a path category. -/
def claim3Cfg : YVal :=
  YVal.map
    [("defaults", YVal.map
        [("plan-args", YVal.map [("args", YVal.list [YVal.s "-a"])]),
         ("var-files", YVal.map [("paths", YVal.list [YVal.s "v.tfvars"])])]),
     ("environments", YVal.map
        [("dev", YVal.map
            [("plan-args", YVal.map
                [("args", YVal.list [YVal.s "-b"]), ("inherit", YVal.b false)]),
             ("var-files", YVal.map
                [("paths", YVal.list [YVal.s "w.tfvars"]), ("inherit", YVal.b false)])])])]

/-- The C3 witness configuration with completely different defaults. -/
def claim3CfgAlt : YVal :=
  YVal.map
    [("defaults", YVal.map
        [("plan-args", YVal.map [("args", YVal.list [YVal.s "-zzz"])]),
         ("var-files", YVal.map [("paths", YVal.list [YVal.s "zzz.tfvars"])])]),
     ("environments", YVal.map
        [("dev", YVal.map
            [("plan-args", YVal.map
                [("args", YVal.list [YVal.s "-b"]), ("inherit", YVal.b false)]),
             ("var-files", YVal.map
                [("paths", YVal.list [YVal.s "w.tfvars"]), ("inherit", YVal.b false)])])])]

/-- Filesystem for the C3 witness: only the environment-declared var-file
exists; the default var-files of either configuration exist nowhere, which
matters only if defaults were (wrongly) read. -/
def claim3Fs : Fs :=
  { files := [["repo", "w.tfvars"]], dirs := [["repo"]] }

/-- Filesystem for C9: the declared file exists in the working directory. -/
def claim9Fs : Fs :=
  { files := [["repo", "infra", "base.tfvars"]], dirs := [["repo"], ["repo", "infra"]] }

/-- Input for the C6 counterexample: the empty environment name. -/
def claim6Input : MainInput :=
  ⟨{ witnessCore with envName := "" }, ""⟩

/-- The C4 configuration: default var-file `base.tfvars`, environment
`staging` adding `staging.tfvars` with `inherit: true`. -/
def claim4Cfg : YVal :=
  YVal.map
    [("defaults", YVal.map
        [("var-files", YVal.map [("paths", YVal.list [YVal.s "base.tfvars"])])]),
     ("environments", YVal.map
        [("staging", YVal.map
            [("var-files", YVal.map
                [("paths", YVal.list [YVal.s "staging.tfvars"]),
                 ("inherit", YVal.b true)])])])]

/-- The C4 filesystem: both var-files at the repository root, working
directory `infra` existing. -/
def claim4Fs : Fs :=
  { files := [["repo", "base.tfvars"], ["repo", "staging.tfvars"]],
    dirs := [["repo"], ["repo", "infra"]] }

/-- The C4 run of `prepare_tf_branch_deploy.py`. -/
def claim4MainInput : MainInput :=
  ⟨{ defaultWorkingDir := "infra", envName := "staging", config := claim4Cfg,
     githubOutput := GithubOutputState.ok, cwd := FsPath.ofString "/repo",
     workspace := FsPath.ofString "/repo", fs := claim4Fs }, ""⟩

/-- The C4 run of `prepare_terrachops.py`. -/
def claim4TcInput : TcInput :=
  { defaultWorkingDir := "infra", envName := "staging", dynamicParams := "",
    config := claim4Cfg, githubOutputOk := true, cwd := FsPath.ofString "/repo",
    fs := claim4Fs }

/-! Helper lemmas about the embedding. -/

/-- Inversion of a successful `Except` bind. -/
theorem ebind_ok {ε α β : Type} {x : Except ε α} {f : α → Except ε β} {b : β}
    (h : (x >>= f) = Except.ok b) : ∃ a, x = Except.ok a ∧ f a = Except.ok b := by
  cases x with
  | error e => simp [Bind.bind, Except.bind] at h
  | ok a => exact ⟨a, rfl, by simpa [Bind.bind, Except.bind] using h⟩

/-- A `shlex`-safe character is never equal to a character that is not
`shlex`-safe. -/
theorem safe_beq_false {c d : Char} (h : shlexSafeChar c = true)
    (hd : shlexSafeChar d = false) : (c == d) = false := by
  cases hbeq : c == d with
  | false => rfl
  | true =>
    have hcd : c = d := eq_of_beq hbeq
    rw [hcd, hd] at h
    cases h

/-- A `shlex`-safe character is not tokenizer whitespace. -/
theorem safe_not_ws {c : Char} (h : shlexSafeChar c = true) : shWhitespace c = false := by
  unfold shWhitespace
  rw [safe_beq_false h (by decide), safe_beq_false h (by decide),
    safe_beq_false h (by decide), safe_beq_false h (by decide)]
  rfl

/-- Single step of the tokenizer: an ordinary character extends the current
word. -/
theorem shlexAux_word_char {c : Char} (hws : shWhitespace c = false)
    (h1 : (c == '\'') = false) (h2 : (c == '"') = false) (h3 : (c == '\\') = false)
    (q : Bool) (acc cs : List Char) :
    shlexAux ShMode.word q acc (c :: cs) = shlexAux ShMode.word q (acc ++ [c]) cs := by
  simp only [shlexAux, hws, h1, h2, h3]
  rfl

/-- Single step of the tokenizer: an ordinary character inside single quotes
extends the token. -/
theorem shlexAux_squote_char {c : Char} (hc : (c == '\'') = false) (acc cs : List Char) :
    shlexAux ShMode.squote true acc (c :: cs) =
      shlexAux ShMode.squote true (acc ++ [c]) cs := by
  simp only [shlexAux, hc]
  rfl

/-- Unfolding of the quote-escaping replacement on a single quote. -/
theorem shlexQuoteEscape_cons_quote (s : List Char) :
    shlexQuoteEscape ('\'' :: s) = '\'' :: '"' :: '\'' :: '"' :: '\'' :: shlexQuoteEscape s := rfl

/-- Unfolding of the quote-escaping replacement on any other character. -/
theorem shlexQuoteEscape_cons_other {c : Char} (hc : (c == '\'') = false) (s : List Char) :
    shlexQuoteEscape (c :: s) = c :: shlexQuoteEscape s := by
  have h : shlexQuoteEscape (c :: s) =
      (if c == '\'' then ['\'', '"', '\'', '"', '\''] else [c]) ++ shlexQuoteEscape s := rfl
  rw [h, hc]
  rfl

/-- Consuming a run of safe characters in word mode accumulates them. -/
theorem word_safe (s : List Char) (hs : ∀ c ∈ s, shlexSafeChar c = true) (q : Bool)
    (acc cs : List Char) :
    shlexAux ShMode.word q acc (s ++ cs) = shlexAux ShMode.word q (acc ++ s) cs := by
  induction s generalizing acc with
  | nil => simp
  | cons c s ih =>
    have hc : shlexSafeChar c = true := hs c (List.mem_cons_self ..)
    rw [List.cons_append,
      shlexAux_word_char (safe_not_ws hc) (safe_beq_false hc (by decide))
        (safe_beq_false hc (by decide)) (safe_beq_false hc (by decide)),
      ih (fun d hd => hs d (List.mem_cons_of_mem _ hd)) (acc ++ [c]),
      List.append_cons acc c s]

/-- Consuming the quote-escaped body of a token, followed by the closing
single quote, lands in word mode with the token accumulated. -/
theorem squote_escaped (s : List Char) (acc cs : List Char) :
    shlexAux ShMode.squote true acc (shlexQuoteEscape s ++ '\'' :: cs) =
      shlexAux ShMode.word true (acc ++ s) cs := by
  induction s generalizing acc with
  | nil => simp [shlexQuoteEscape, shlexAux]
  | cons c s ih =>
    by_cases hc : c = '\''
    · subst hc
      rw [shlexQuoteEscape_cons_quote, List.cons_append, List.cons_append, List.cons_append,
        List.cons_append, List.cons_append]
      have hstep : ∀ acc2 rest, shlexAux ShMode.squote true acc2
          ('\'' :: '"' :: '\'' :: '"' :: '\'' :: rest) =
          shlexAux ShMode.squote true (acc2 ++ ['\'']) rest := fun _ _ => rfl
      rw [hstep, ih (acc ++ ['\'']), List.append_cons acc '\'' s]
    · have hbeq : (c == '\'') = false := by
        cases hb : c == '\'' with
        | false => rfl
        | true => exact absurd (eq_of_beq hb) hc
      rw [shlexQuoteEscape_cons_other hbeq, List.cons_append, shlexAux_squote_char hbeq,
        ih (acc ++ [c]), List.append_cons acc c s]

/-- Rebuilding a string from its characters. -/
theorem string_mk_data (s : String) : String.mk s.data = s := rfl

/-- Single step of the tokenizer: an ordinary character opens a word. -/
theorem shlexAux_start_char {c : Char} (hws : shWhitespace c = false)
    (h1 : (c == '\\') = false) (h2 : (c == '\'') = false) (h3 : (c == '"') = false)
    (cs : List Char) :
    shlexAux ShMode.start false [] (c :: cs) = shlexAux ShMode.word false [c] cs := by
  simp only [shlexAux, hws, h1, h2, h3]
  rfl

/-- Single step of the tokenizer: whitespace in word mode emits the token
when it is nonempty or was quoted. -/
theorem shlexAux_word_space (q : Bool) (acc cs : List Char) :
    shlexAux ShMode.word q acc (' ' :: cs) =
      if acc.isEmpty && !q then shlexAux ShMode.start false [] cs
      else (shlexAux ShMode.start false [] cs).map (fun r => String.mk acc :: r) := rfl

/-- End of input in word mode emits the token when it is nonempty or was
quoted. -/
theorem shlexAux_word_eof (q : Bool) (acc : List Char) :
    shlexAux ShMode.word q acc [] =
      if acc.isEmpty && !q then some [] else some [String.mk acc] := rfl

/-- Processing the `shlex.quote` of any token from between-token state
consumes it entirely, landing in word mode with exactly the token
accumulated and in a state that forces its emission. -/
theorem quote_consume (t : String) (cs : List Char) :
    ∃ q : Bool, shlexAux ShMode.start false [] ((shlexQuote t).data ++ cs) =
        shlexAux ShMode.word q t.data cs ∧ (t.data.isEmpty && !q) = false := by
  by_cases ht : t = ""
  · subst ht
    exact ⟨true, rfl, rfl⟩
  · by_cases hsafe : t.data.all shlexSafeChar
    · refine ⟨false, ?_, ?_⟩
      · have hq : shlexQuote t = t := by
          unfold shlexQuote
          rw [if_neg ht, if_pos hsafe]
        rw [hq]
        cases hdata : t.data with
        | nil => exact absurd (String.ext hdata) ht
        | cons c rest =>
          have hall : ∀ d ∈ c :: rest, shlexSafeChar d = true := by
            rw [← hdata]
            exact fun d hd => List.all_eq_true.mp hsafe d hd
          have hc : shlexSafeChar c = true := hall c (List.mem_cons_self ..)
          rw [List.cons_append,
            shlexAux_start_char (safe_not_ws hc) (safe_beq_false hc (by decide))
              (safe_beq_false hc (by decide)) (safe_beq_false hc (by decide)),
            word_safe rest (fun d hd => hall d (List.mem_cons_of_mem _ hd)) false [c] cs]
          rfl
      · cases hdata : t.data with
        | nil => exact absurd (String.ext hdata) ht
        | cons c rest => rfl
    · refine ⟨true, ?_, by simp⟩
      have hq : shlexQuote t = String.mk ('\'' :: shlexQuoteEscape t.data ++ ['\'']) := by
        unfold shlexQuote
        rw [if_neg ht, if_neg hsafe]
      rw [hq]
      show shlexAux ShMode.start false []
          ((('\'' :: shlexQuoteEscape t.data) ++ ['\'']) ++ cs) = _
      simp only [List.cons_append, List.append_assoc, List.singleton_append, List.nil_append]
      have hstart : ∀ rest, shlexAux ShMode.start false [] ('\'' :: rest) =
          shlexAux ShMode.squote true [] rest := fun _ => rfl
      rw [hstart, squote_escaped t.data [] cs]
      rfl

/-- Processing a quoted token followed by a space emits exactly that token
and continues from between-token state. -/
theorem quote_then_space (t : String) (cs : List Char) :
    shlexAux ShMode.start false [] ((shlexQuote t).data ++ ' ' :: cs) =
      (shlexAux ShMode.start false [] cs).map (fun r => t :: r) := by
  obtain ⟨q, h1, h2⟩ := quote_consume t (' ' :: cs)
  rw [h1, shlexAux_word_space, if_neg (by simp [h2]), string_mk_data]

/-- Processing a quoted token at the end of input emits exactly that
token. -/
theorem quote_at_eof (t : String) :
    shlexAux ShMode.start false [] (shlexQuote t).data = some [t] := by
  obtain ⟨q, h1, h2⟩ := quote_consume t []
  rw [List.append_nil] at h1
  rw [h1, shlexAux_word_eof, if_neg (by simp [h2]), string_mk_data]

/-- Round trip of the output emitter through the tokenizer: splitting the
space-join of shell-quoted tokens recovers exactly the token list. -/
theorem shlex_roundtrip (args : List String) :
    shlexSplit (joinSpace (args.map shlexQuote)) = some args := by
  induction args with
  | nil => rfl
  | cons t rest ih =>
    cases rest with
    | nil => exact quote_at_eof t
    | cons u rest' =>
      show shlexAux ShMode.start false []
        ((shlexQuote t ++ " " ++ joinSpace ((u :: rest').map shlexQuote)).data) = _
      rw [String.data_append, String.data_append, List.append_assoc]
      have hs : (" " : String).data = [' '] := rfl
      rw [hs, List.singleton_append, quote_then_space]
      show (shlexSplit (joinSpace ((u :: rest').map shlexQuote))).map (fun r => t :: r) = _
      rw [ih]
      rfl

/-- The sanitizing loop is the allow-list filter: admitted flags are the
tokens with an allow-listed shape in input order, warnings are issued for
exactly the other tokens in input order. -/
theorem sanitize_eq_filter (toks : List String) :
    sanitizeDynamicFlags toks =
      (toks.filter isAllowedDynamic,
        (toks.filter (fun t => !(isAllowedDynamic t))).map dynWarnMsg) := by
  induction toks with
  | nil => rfl
  | cons p ps ih =>
    simp only [sanitizeDynamicFlags, ih]
    cases hp : isAllowedDynamic p with
    | true => simp [List.filter_cons, hp]
    | false => simp [List.filter_cons, hp]

/-- On a list of strings the argument-validating loop succeeds and prefixes
every item. -/
theorem validateStrArgs_strings (xs : List String) (pfx ctx : String) :
    validateStrArgs (xs.map YVal.s) pfx ctx = Except.ok (xs.map (fun a => pfx ++ a)) := by
  induction xs with
  | nil => rfl
  | cons a xs ih =>
    simp only [List.map_cons, validateStrArgs, ih]
    rfl

/-- On a list of strings whose paths all resolve, the path-resolving loop
succeeds. -/
theorem resolvePathItems_ok (xs : List String) (pfx ctx : String) (root wd : FsPath) (fs : Fs)
    (h : ∀ p ∈ xs, ∃ r, get_relative_path_for_tf p root wd fs = Except.ok r) :
    ∃ l, resolvePathItems (xs.map YVal.s) pfx ctx root wd fs = Except.ok l := by
  induction xs with
  | nil => exact ⟨[], rfl⟩
  | cons a xs ih =>
    obtain ⟨r, hr⟩ := h a (List.mem_cons_self ..)
    obtain ⟨l, hl⟩ := ih (fun p hp => h p (List.mem_cons_of_mem _ hp))
    refine ⟨(pfx ++ r) :: l, ?_⟩
    simp only [List.map_cons, resolvePathItems, hr, hl, Bind.bind, Except.bind]

/-- With inheritance on and well-typed lists, `process_args` merges the
prefixed defaults before the prefixed environment items. -/
theorem process_args_inherit (config : YVal) (envName keyName pfx : String)
    (ds es : List String)
    (hinh : inheritFlag config envName keyName = true)
    (hd : defaultsArgsVal config keyName = strList ds)
    (he : envArgsVal config envName keyName = strList es) :
    process_args config envName keyName pfx =
      Except.ok (ds.map (fun a => pfx ++ a) ++ es.map (fun a => pfx ++ a)) := by
  unfold process_args
  rw [hinh, hd, he]
  simp only [strList, if_true, validateStrArgs_strings, Bind.bind, Except.bind]

/-- With inheritance explicitly off, `process_args` returns only the
prefixed environment items. -/
theorem process_args_no_inherit (config : YVal) (envName keyName pfx : String)
    (es : List String)
    (hinh : inheritFlag config envName keyName = false)
    (he : envArgsVal config envName keyName = strList es) :
    process_args config envName keyName pfx = Except.ok (es.map (fun a => pfx ++ a)) := by
  unfold process_args
  rw [hinh, he]
  simp only [strList, Bool.false_eq_true, if_false, validateStrArgs_strings, Bind.bind,
    Except.bind, List.nil_append]

/-- With inheritance on, well-typed path lists, and every declared path
resolvable, the inline path-category block resolves the default paths first
and the environment paths second. -/
theorem buildPathArgs_inherit (config : YVal) (envName keyName pfx : String)
    (root wd : FsPath) (fs : Fs) (dps eps : List String)
    (hinh : inheritFlag config envName keyName = true)
    (hdp : defaultsPathsVal config keyName = strList dps)
    (hep : envPathsVal config envName keyName = strList eps)
    (hres : ∀ p ∈ dps ++ eps, ∃ r, get_relative_path_for_tf p root wd fs = Except.ok r) :
    ∃ dl el,
      resolvePathItems (dps.map YVal.s) pfx (".defaults." ++ keyName ++ ".paths") root wd fs =
        Except.ok dl ∧
      resolvePathItems (eps.map YVal.s) pfx
          (".environments." ++ envName ++ "." ++ keyName ++ ".paths") root wd fs =
        Except.ok el ∧
      buildPathArgs config envName keyName pfx root wd fs = Except.ok (dl ++ el) := by
  obtain ⟨dl, hdl⟩ := resolvePathItems_ok dps pfx (".defaults." ++ keyName ++ ".paths") root wd fs
    (fun p hp => hres p (List.mem_append_left _ hp))
  obtain ⟨el, hel⟩ := resolvePathItems_ok eps pfx
    (".environments." ++ envName ++ "." ++ keyName ++ ".paths") root wd fs
    (fun p hp => hres p (List.mem_append_right _ hp))
  refine ⟨dl, el, hdl, hel, ?_⟩
  unfold buildPathArgs
  rw [hinh, hdp, hep]
  simp only [strList, if_true, hdl, hel, Bind.bind, Except.bind]

/-- With inheritance explicitly off, the inline path-category block returns
only the resolved environment paths. -/
theorem buildPathArgs_no_inherit (config : YVal) (envName keyName pfx : String)
    (root wd : FsPath) (fs : Fs)
    (hinh : inheritFlag config envName keyName = false) :
    buildPathArgs config envName keyName pfx root wd fs =
      (match envPathsVal config envName keyName with
        | YVal.list items => (resolvePathItems items pfx
            (".environments." ++ envName ++ "." ++ keyName ++ ".paths") root wd fs).map
              (fun envPart => [] ++ envPart)
        | _ => Except.error ("Configuration Error: '.environments." ++ envName ++ "."
            ++ keyName ++ ".paths' must be a list.")) := by
  unfold buildPathArgs
  rw [hinh]
  simp only [Bool.false_eq_true, if_false, Bind.bind, Except.bind]
  cases envPathsVal config envName keyName <;> simp [Except.map, Bind.bind, Except.bind]

/-- With inheritance explicitly off, a well-typed environment path list
whose members all resolve makes the inline path-category block return
exactly the resolved environment paths. -/
theorem buildPathArgs_no_inherit_ok (config : YVal) (envName keyName pfx : String)
    (root wd : FsPath) (fs : Fs) (eps : List String)
    (hinh : inheritFlag config envName keyName = false)
    (hep : envPathsVal config envName keyName = strList eps)
    (hres : ∀ p ∈ eps, ∃ r, get_relative_path_for_tf p root wd fs = Except.ok r) :
    ∃ el, resolvePathItems (eps.map YVal.s) pfx
        (".environments." ++ envName ++ "." ++ keyName ++ ".paths") root wd fs =
          Except.ok el ∧
      buildPathArgs config envName keyName pfx root wd fs = Except.ok el := by
  obtain ⟨el, hel⟩ := resolvePathItems_ok eps pfx
    (".environments." ++ envName ++ "." ++ keyName ++ ".paths") root wd fs hres
  refine ⟨el, hel, ?_⟩
  unfold buildPathArgs
  rw [hinh, hep]
  simp only [strList, Bool.false_eq_true, if_false, Bind.bind, Except.bind, hel,
    List.nil_append]

/-- With inheritance off, `process_args` reads only the `environments`
section: two documents agreeing there produce the same result whatever
their `defaults` sections hold. -/
theorem process_args_envs_only (c1 c2 : YVal) (envName keyName pfx : String)
    (hagree : c1.dgetMap "environments" = c2.dgetMap "environments")
    (hinh : inheritFlag c1 envName keyName = false) :
    process_args c1 envName keyName pfx = process_args c2 envName keyName pfx := by
  have hinh2 : inheritFlag c2 envName keyName = false := by
    unfold inheritFlag inheritSetting at hinh ⊢
    rw [← hagree]
    exact hinh
  have henv : envArgsVal c1 envName keyName = envArgsVal c2 envName keyName := by
    unfold envArgsVal
    rw [hagree]
  unfold process_args
  rw [hinh, hinh2, henv]
  simp only [Bool.false_eq_true, if_false]

/-- With inheritance off, the inline path-category block reads only the
`environments` section. -/
theorem buildPathArgs_envs_only (c1 c2 : YVal) (envName keyName pfx : String)
    (root wd : FsPath) (fs : Fs)
    (hagree : c1.dgetMap "environments" = c2.dgetMap "environments")
    (hinh : inheritFlag c1 envName keyName = false) :
    buildPathArgs c1 envName keyName pfx root wd fs =
      buildPathArgs c2 envName keyName pfx root wd fs := by
  have hinh2 : inheritFlag c2 envName keyName = false := by
    unfold inheritFlag inheritSetting at hinh ⊢
    rw [← hagree]
    exact hinh
  have henv : envPathsVal c1 envName keyName = envPathsVal c2 envName keyName := by
    unfold envPathsVal
    rw [hagree]
  unfold buildPathArgs
  rw [hinh, hinh2, henv]
  simp only [Bool.false_eq_true, if_false]

/-- A string surviving `strip()` is nonempty. -/
theorem stripNonempty_ne_empty {s : String} (h : pyStripNonempty s = true) : s ≠ "" := by
  intro heq
  subst heq
  exact absurd h (by decide)

/-- A successful core run records the normalized working directory. -/
theorem mainCoreWd_ok_workingDir {c : CoreInput} {w : String} {core : ResolvedCore}
    (h : mainCoreWd c w = Except.ok core) : core.workingDir = normWd w := by
  simp only [mainCoreWd] at h
  split at h
  · obtain ⟨a1, h1, h⟩ := ebind_ok h
    obtain ⟨a2, h2, h⟩ := ebind_ok h
    obtain ⟨a3, h3, h⟩ := ebind_ok h
    obtain ⟨a4, h4, h⟩ := ebind_ok h
    obtain ⟨a5, h5, h⟩ := ebind_ok h
    cases h
    rfl
  · cases h

/-- Inversion of a successful full run: the core pipeline succeeded, the
dynamic string tokenized, and the outputs are the core outputs with the
sanitized flags appended to the plan arguments. -/
theorem runMain_ok_inv {i : MainInput} {o : Outputs} (h : runMain i = Except.ok o) :
    ∃ core toks, mainCore i.core = Except.ok core ∧
      shlexSplit i.dynamicParams = some toks ∧
      o = { workingDir := core.workingDir, initArgs := core.initArgs,
            planArgs := core.planBase ++ (sanitizeDynamicFlags toks).1,
            applyArgs := core.applyArgs } := by
  unfold runMain at h
  obtain ⟨core, hc, h⟩ := ebind_ok h
  cases hsp : shlexSplit i.dynamicParams with
  | none =>
    rw [hsp] at h
    cases h
  | some toks =>
    rw [hsp] at h
    refine ⟨core, toks, hc, rfl, ?_⟩
    cases h
    rfl

/-- C1: for every dynamic-parameters string that tokenizes, the flags
appended to the plan arguments are exactly the tokens with an allow-listed
shape, verbatim and in input order (a sublist of the tokens); every other
token is dropped with a warning naming it and never reaches the appended
flags; and on any successful run with that dynamic string the plan
arguments are the static plan arguments followed by exactly those flags. -/
theorem claim1_dynamic_sanitizer (s : String) (toks : List String)
    (htok : shlexSplit s = some toks) (i : MainInput) (o : Outputs)
    (hs : i.dynamicParams = s) (ho : runMain i = Except.ok o) :
    sanitizeDynamicFlags toks =
      (toks.filter isAllowedDynamic,
        (toks.filter (fun t => !(isAllowedDynamic t))).map dynWarnMsg) ∧
    List.Sublist (toks.filter isAllowedDynamic) toks ∧
    (∀ t ∈ toks, isAllowedDynamic t = false → t ∉ (sanitizeDynamicFlags toks).1) ∧
    (∃ base, o.planArgs = base ++ toks.filter isAllowedDynamic) := by
  have hfst : (sanitizeDynamicFlags toks).1 = toks.filter isAllowedDynamic := by
    rw [sanitize_eq_filter]
  refine ⟨sanitize_eq_filter toks, List.filter_sublist toks, ?_, ?_⟩
  · intro t ht hall hmem
    rw [hfst] at hmem
    have h2 := (List.mem_filter.mp hmem).2
    rw [hall] at h2
    cases h2
  · obtain ⟨core, toks2, hcore, hsp, hoeq⟩ := runMain_ok_inv ho
    rw [hs, htok] at hsp
    have htt : toks2 = toks := by
      cases hsp
      rfl
    subst htt
    exact ⟨core.planBase, by rw [hoeq, hfst]⟩

/-- Witness for C1 at the dynamic string of the specification example. -/
theorem claim1_dynamic_sanitizer_witness :
    (sanitizeDynamicFlags ["-var=foo=bar", "--evil=1", "--target=module.x"]).1 =
      ["-var=foo=bar", "--target=module.x"] := by
  have h := claim1_dynamic_sanitizer "-var=foo=bar --evil=1 --target=module.x"
    ["-var=foo=bar", "--evil=1", "--target=module.x"] rfl
    ⟨witnessCore, "-var=foo=bar --evil=1 --target=module.x"⟩
    { workingDir := "", initArgs := [],
      planArgs := ["-var=foo=bar", "--target=module.x"], applyArgs := [] }
    rfl rfl
  rw [h.1]
  rfl

/-- C2: for every category, when `environments.<env>.<category>.inherit` is
unset or truthy, the merged list is the defaults list followed by the
environment list, in that order: prefixed for the argument categories
(`process_args`), path-resolved and prefixed for the path categories (the
inline blocks, `buildPathArgs`). -/
theorem claim2_inherit_merge (config : YVal) (envName keyName pfx : String)
    (root wd : FsPath) (fs : Fs) (ds es dps eps : List String)
    (_hshape : configShaped config envName keyName)
    (hinh : inheritSetting config envName keyName = none ∨
      ∃ v, inheritSetting config envName keyName = some v ∧ v.truthy = true)
    (hd : defaultsArgsVal config keyName = strList ds)
    (he : envArgsVal config envName keyName = strList es)
    (hdp : defaultsPathsVal config keyName = strList dps)
    (hep : envPathsVal config envName keyName = strList eps)
    (hres : ∀ p ∈ dps ++ eps, ∃ r, get_relative_path_for_tf p root wd fs = Except.ok r) :
    process_args config envName keyName pfx =
      Except.ok (ds.map (fun a => pfx ++ a) ++ es.map (fun a => pfx ++ a)) ∧
    ∃ dl el,
      resolvePathItems (dps.map YVal.s) pfx (".defaults." ++ keyName ++ ".paths") root wd fs =
        Except.ok dl ∧
      resolvePathItems (eps.map YVal.s) pfx
          (".environments." ++ envName ++ "." ++ keyName ++ ".paths") root wd fs =
        Except.ok el ∧
      buildPathArgs config envName keyName pfx root wd fs = Except.ok (dl ++ el) := by
  have hflag : inheritFlag config envName keyName = true := by
    unfold inheritFlag
    rcases hinh with h | ⟨v, hv, ht⟩
    · rw [h]
    · rw [hv]
      exact ht
  exact ⟨process_args_inherit config envName keyName pfx ds es hflag hd he,
    buildPathArgs_inherit config envName keyName pfx root wd fs dps eps hflag hdp hep hres⟩

/-- Witness for C2 on a concrete configuration: defaults come first. -/
theorem claim2_inherit_merge_witness :
    process_args claim2Cfg "dev" "plan-args" "" = Except.ok ["-a", "-b"] := by
  have h := claim2_inherit_merge claim2Cfg "dev" "plan-args" ""
    (FsPath.ofString "/repo") (FsPath.ofString "/repo") claim2Fs
    ["-a"] ["-b"] [] []
    ⟨⟨_, rfl⟩, trivial, trivial, trivial, trivial, trivial⟩
    (Or.inl rfl) rfl rfl rfl rfl
    (by intro p hp; cases hp)
  rw [h.1]
  rfl

/-- C3: for every category, when `inherit` is explicitly falsy, the merged
list is the environment list only — prefixed environment items for the
argument categories, resolved and prefixed environment paths for the path
categories — and the `defaults` section has no effect at all: two documents
agreeing on `environments` give identical results for both kinds of
categories. -/
theorem claim3_no_inherit_merge (c1 c2 : YVal) (envName keyName pfx : String)
    (root wd : FsPath) (fs : Fs) (v : YVal) (es eps : List String)
    (_hshape1 : configShaped c1 envName keyName)
    (_hshape2 : ∃ kvs, c2 = YVal.map kvs)
    (hagree : c1.dgetMap "environments" = c2.dgetMap "environments")
    (hinh : inheritSetting c1 envName keyName = some v)
    (hfalse : v.truthy = false)
    (hes : envArgsVal c1 envName keyName = strList es)
    (hep : envPathsVal c1 envName keyName = strList eps)
    (hres : ∀ p ∈ eps, ∃ r, get_relative_path_for_tf p root wd fs = Except.ok r) :
    process_args c1 envName keyName pfx = process_args c2 envName keyName pfx ∧
    buildPathArgs c1 envName keyName pfx root wd fs =
      buildPathArgs c2 envName keyName pfx root wd fs ∧
    process_args c1 envName keyName pfx = Except.ok (es.map (fun a => pfx ++ a)) ∧
    ∃ el, resolvePathItems (eps.map YVal.s) pfx
        (".environments." ++ envName ++ "." ++ keyName ++ ".paths") root wd fs =
          Except.ok el ∧
      buildPathArgs c1 envName keyName pfx root wd fs = Except.ok el := by
  have hflag : inheritFlag c1 envName keyName = false := by
    unfold inheritFlag
    rw [hinh]
    exact hfalse
  exact ⟨process_args_envs_only c1 c2 envName keyName pfx hagree hflag,
    buildPathArgs_envs_only c1 c2 envName keyName pfx root wd fs hagree hflag,
    process_args_no_inherit c1 envName keyName pfx es hflag hes,
    buildPathArgs_no_inherit_ok c1 envName keyName pfx root wd fs eps hflag hep hres⟩

/-- Witness for C3 on a concrete configuration, for an argument category
and a path category: the defaults of both documents are ignored (the
default var-files do not even exist), and the merged lists are exactly the
environment-specific ones. -/
theorem claim3_no_inherit_merge_witness :
    process_args claim3Cfg "dev" "plan-args" "" =
      process_args claim3CfgAlt "dev" "plan-args" "" ∧
    process_args claim3Cfg "dev" "plan-args" "" = Except.ok ["-b"] ∧
    buildPathArgs claim3Cfg "dev" "var-files" "-var-file=" (FsPath.ofString "/repo")
        (FsPath.ofString "/repo") claim3Fs =
      buildPathArgs claim3CfgAlt "dev" "var-files" "-var-file=" (FsPath.ofString "/repo")
        (FsPath.ofString "/repo") claim3Fs ∧
    buildPathArgs claim3Cfg "dev" "var-files" "-var-file=" (FsPath.ofString "/repo")
        (FsPath.ofString "/repo") claim3Fs = Except.ok ["-var-file=w.tfvars"] := by
  have h1 := claim3_no_inherit_merge claim3Cfg claim3CfgAlt "dev" "plan-args" ""
    (FsPath.ofString "/repo") (FsPath.ofString "/repo") claim3Fs
    (YVal.b false) ["-b"] []
    ⟨⟨_, rfl⟩, trivial, trivial, trivial, trivial, trivial⟩ ⟨_, rfl⟩
    rfl rfl rfl rfl rfl (by intro p hp; cases hp)
  have h2 := claim3_no_inherit_merge claim3Cfg claim3CfgAlt "dev" "var-files" "-var-file="
    (FsPath.ofString "/repo") (FsPath.ofString "/repo") claim3Fs
    (YVal.b false) [] ["w.tfvars"]
    ⟨⟨_, rfl⟩, trivial, trivial, trivial, trivial, trivial⟩ ⟨_, rfl⟩
    rfl rfl rfl rfl rfl
    (by
      intro p hp
      rw [List.mem_singleton] at hp
      subst hp
      exact ⟨"w.tfvars", rfl⟩)
  obtain ⟨el, hel, hb⟩ := h2.2.2.2
  have hel2 : el = ["-var-file=w.tfvars"] := by
    have hcomp : resolvePathItems (["w.tfvars"].map YVal.s) "-var-file="
        (".environments." ++ "dev" ++ "." ++ "var-files" ++ ".paths")
        (FsPath.ofString "/repo") (FsPath.ofString "/repo") claim3Fs =
        Except.ok ["-var-file=w.tfvars"] := rfl
    rw [hcomp] at hel
    exact (Except.ok.inj hel).symm
  subst hel2
  exact ⟨h1.1, by rw [h1.2.2.1]; rfl, h2.2.1, hb⟩

/-- C8: each emitted argument value is the space join of the shell-quoted
tokens of its final argument list, and tokenizing the emitted value with the
shell-quoting rules recovers exactly the original token sequence. -/
theorem claim8_emitted_args_roundtrip (o : Outputs) :
    o.initArgsStr = joinSpace (o.initArgs.map shlexQuote) ∧
    o.planArgsStr = joinSpace (o.planArgs.map shlexQuote) ∧
    o.applyArgsStr = joinSpace (o.applyArgs.map shlexQuote) ∧
    shlexSplit o.initArgsStr = some o.initArgs ∧
    shlexSplit o.planArgsStr = some o.planArgs ∧
    shlexSplit o.applyArgsStr = some o.applyArgs :=
  ⟨rfl, rfl, rfl, shlex_roundtrip o.initArgs, shlex_roundtrip o.planArgs,
    shlex_roundtrip o.applyArgs⟩

/-- C10: two runs identical except in the dynamic-parameters string emit the
same working directory, the same init arguments and the same apply
arguments, both as token lists and as emitted strings; sanitized dynamic
flags reach only the plan arguments. -/
theorem claim10_noninterference (i1 i2 : MainInput) (o1 o2 : Outputs)
    (hsame : i1.core = i2.core)
    (h1 : runMain i1 = Except.ok o1) (h2 : runMain i2 = Except.ok o2) :
    o1.workingDir = o2.workingDir ∧ o1.initArgs = o2.initArgs ∧
    o1.applyArgs = o2.applyArgs ∧ o1.initArgsStr = o2.initArgsStr ∧
    o1.applyArgsStr = o2.applyArgsStr := by
  obtain ⟨c1, t1, hc1, ht1, he1⟩ := runMain_ok_inv h1
  obtain ⟨c2, t2, hc2, ht2, he2⟩ := runMain_ok_inv h2
  rw [hsame] at hc1
  rw [hc1] at hc2
  have hc : c1 = c2 := by
    cases hc2
    rfl
  subst hc
  rw [he1, he2]
  exact ⟨rfl, rfl, rfl, rfl, rfl⟩

/-- Witness for C10: a run with no dynamic flags and a run with one admitted
dynamic flag agree on everything except the plan arguments. -/
theorem claim10_noninterference_witness :
    Outputs.workingDir
        { workingDir := "", initArgs := [], planArgs := [], applyArgs := [] } =
      Outputs.workingDir
        { workingDir := "", initArgs := [], planArgs := ["-var=a=b"], applyArgs := [] } :=
  (claim10_noninterference ⟨witnessCore, ""⟩ ⟨witnessCore, "-var=a=b"⟩
    { workingDir := "", initArgs := [], planArgs := [], applyArgs := [] }
    { workingDir := "", initArgs := [], planArgs := ["-var=a=b"], applyArgs := [] }
    rfl rfl rfl).1

/-- C5: a declared path that exists at none of the expected locations always
aborts the resolver with the error naming the declared path (the absolute
or the two-root message), and never produces a successful entry. -/
theorem claim5_missing_file (orig : String) (root wd : FsPath) (fs : Fs)
    (habs : fs.existsPath (FsPath.ofString orig) = false)
    (hwd : fs.existsPath (wd.join (FsPath.ofString orig)) = false)
    (hroot : fs.existsPath (root.join (FsPath.ofString orig)) = false) :
    get_relative_path_for_tf orig root wd fs =
      Except.error
        (if (FsPath.ofString orig).absolute then absMissingMsg orig else missingFileMsg orig) ∧
    ∀ r, get_relative_path_for_tf orig root wd fs ≠ Except.ok r := by
  have hmain : get_relative_path_for_tf orig root wd fs =
      Except.error
        (if (FsPath.ofString orig).absolute then absMissingMsg orig else missingFileMsg orig) := by
    cases hA : (FsPath.ofString orig).absolute with
    | true => simp [get_relative_path_for_tf, hA, habs]
    | false => simp [get_relative_path_for_tf, hA, hwd, hroot]
  refine ⟨hmain, fun r hr => ?_⟩
  rw [hmain] at hr
  cases hr

/-- Witness for C5: a relative path that exists nowhere. -/
theorem claim5_missing_file_witness :
    get_relative_path_for_tf "ghost.tfvars" (FsPath.ofString "/repo")
        (FsPath.ofString "/repo") { files := [], dirs := [] } =
      Except.error (missingFileMsg "ghost.tfvars") := by
  have h := claim5_missing_file "ghost.tfvars" (FsPath.ofString "/repo")
    (FsPath.ofString "/repo") { files := [], dirs := [] } rfl rfl rfl
  rw [h.1]
  rfl

/-- Counterexample to C9 as stated: `./base.tfvars` is a non-absolute
declared path that exists relative to the working directory, yet the
resolver returns the normalized spelling `base.tfvars`, not the same string
unchanged. -/
theorem claim9_idempotence_counterexample :
    (FsPath.ofString "./base.tfvars").absolute = false ∧
    claim9Fs.existsPath
        ((FsPath.ofString "/repo/infra").join (FsPath.ofString "./base.tfvars")) = true ∧
    get_relative_path_for_tf "./base.tfvars" (FsPath.ofString "/repo")
        (FsPath.ofString "/repo/infra") claim9Fs = Except.ok "base.tfvars" ∧
    get_relative_path_for_tf "./base.tfvars" (FsPath.ofString "/repo")
        (FsPath.ofString "/repo/infra") claim9Fs ≠ Except.ok "./base.tfvars" := by
  refine ⟨rfl, rfl, rfl, fun h => ?_⟩
  have hcomp : get_relative_path_for_tf "./base.tfvars" (FsPath.ofString "/repo")
      (FsPath.ofString "/repo/infra") claim9Fs = Except.ok "base.tfvars" := rfl
  rw [hcomp] at h
  exact absurd (Except.ok.inj h) (by decide)

/-- C9 amended: for every non-absolute declared path that exists relative to
the working directory, the resolver returns the `pathlib` normalization of
the declared string (the rendering of its parsed parts as a relative path),
and it returns the declared string unchanged exactly when the string is
already in that normal form (no `.` parts, no empty parts, no trailing
slash). -/
theorem claim9_idempotence_amended (orig : String) (root wd : FsPath) (fs : Fs)
    (habs : (FsPath.ofString orig).absolute = false)
    (hex : fs.existsPath (wd.join (FsPath.ofString orig)) = true) :
    get_relative_path_for_tf orig root wd fs =
      Except.ok (FsPath.toString
        { absolute := false, segments := (FsPath.ofString orig).segments }) ∧
    (get_relative_path_for_tf orig root wd fs = Except.ok orig ↔
      FsPath.toString
        { absolute := false, segments := (FsPath.ofString orig).segments } = orig) := by
  have hrel : (wd.join (FsPath.ofString orig)).relativeTo wd =
      some { absolute := false, segments := (FsPath.ofString orig).segments } := by
    unfold FsPath.join FsPath.relativeTo
    rw [habs]
    simp only [Bool.false_eq_true, if_false]
    rw [if_pos]
    · rw [List.drop_left]
    · simp [List.isPrefixOf_iff_prefix, List.prefix_append]
  have hmain : get_relative_path_for_tf orig root wd fs =
      Except.ok (FsPath.toString
        { absolute := false, segments := (FsPath.ofString orig).segments }) := by
    simp only [get_relative_path_for_tf]
    rw [habs]
    simp [hex, hrel]
  refine ⟨hmain, ?_⟩
  rw [hmain]
  constructor
  · intro h
    exact Except.ok.inj h
  · intro h
    rw [h]

/-- Witness for the amended C9: an already-normalized relative path comes
back unchanged, via the only-if direction of the characterization. -/
theorem claim9_idempotence_amended_witness :
    get_relative_path_for_tf "base.tfvars" (FsPath.ofString "/repo")
        (FsPath.ofString "/repo/infra") claim9Fs = Except.ok "base.tfvars" :=
  (claim9_idempotence_amended "base.tfvars" (FsPath.ofString "/repo")
    (FsPath.ofString "/repo/infra") claim9Fs rfl rfl).2.mpr rfl

/-- Counterexample to C6 as stated: the empty string is a requested
environment name absent from the environments mapping and different from
the production sentinel, yet the run fails with the invalid-argument usage
error, not with the unknown-environment error. -/
theorem claim6_unknown_env_counterexample :
    envMember claim6Input.core.config "" = false ∧
    ("" : String) ≠ "production" ∧
    runMain claim6Input =
      Except.error "Invalid or empty environment name argument provided to script." ∧
    "Invalid or empty environment name argument provided to script." ≠ unknownEnvMsg "" :=
  ⟨rfl, by decide, rfl, by decide⟩

/-- C6 amended: for every requested environment name that is nonempty after
stripping whitespace, absent from the environments mapping and different
from the production sentinel, a run with valid invocation arguments and a
usable output channel fails with the unknown-environment error; no output
record is produced (an `Except.error` run emits nothing). -/
theorem claim6_unknown_env_amended (i : MainInput)
    (hwd : pyStripNonempty i.core.defaultWorkingDir = true)
    (henv : pyStripNonempty i.core.envName = true)
    (hout : i.core.githubOutput = GithubOutputState.ok)
    (_hconf : ∃ kvs, i.core.config = YVal.map kvs)
    (_hshape : YVal.mapOrAbsent (i.core.config.lookup "environments"))
    (hmem : envMember i.core.config i.core.envName = false)
    (hprod : i.core.envName ≠ "production") :
    runMain i = Except.error (unknownEnvMsg i.core.envName) := by
  have hne : i.core.envName ≠ "" := stripNonempty_ne_empty henv
  have herr : mainCore i.core = Except.error (unknownEnvMsg i.core.envName) := by
    unfold mainCore
    rw [hout]
    simp [hwd, henv, hne, hprod, hmem]
  unfold runMain
  rw [herr]
  rfl

/-- Witness for the amended C6: environment `ghost` against the empty
configuration. -/
theorem claim6_unknown_env_amended_witness :
    runMain ⟨{ witnessCore with envName := "ghost" }, ""⟩ =
      Except.error (unknownEnvMsg "ghost") :=
  claim6_unknown_env_amended ⟨{ witnessCore with envName := "ghost" }, ""⟩
    rfl rfl rfl ⟨_, rfl⟩ trivial rfl (by decide)

/-- C7: on a validly invoked run with a valid environment, the effective
working directory is the environment's declared `working-directory` when
present and otherwise the caller-supplied default, normalized by stripping
one leading `./` and collapsing a bare `.` to the empty string; when the
normalized value does not resolve to an existing directory the run fails
with the invalid-working-directory error, and on every successful run the
emitted working directory is exactly the normalized value. -/
theorem claim7_working_dir (i : MainInput) (w : String)
    (hwd : pyStripNonempty i.core.defaultWorkingDir = true)
    (henv : pyStripNonempty i.core.envName = true)
    (hout : i.core.githubOutput = GithubOutputState.ok)
    (_hconf : ∃ kvs, i.core.config = YVal.map kvs)
    (_hshape : YVal.mapOrAbsent (i.core.config.lookup "environments"))
    (_hshape2 : YVal.mapOrAbsent ((i.core.config.dgetMap "environments").lookup i.core.envName))
    (henvok : i.core.envName = "production" ∨ envMember i.core.config i.core.envName = true)
    (hdecl : wdSetting i.core.config i.core.envName = some (YVal.s w) ∨
      (wdSetting i.core.config i.core.envName = none ∧ w = i.core.defaultWorkingDir)) :
    (i.core.fs.isDir (i.core.cwd.join (FsPath.ofString (normWd w))) = false →
      runMain i = Except.error (invalidWdMsg (normWd w)
        (FsPath.toString (i.core.cwd.join (FsPath.ofString (normWd w)))))) ∧
    (∀ o, runMain i = Except.ok o → o.workingDir = normWd w) := by
  have hguard : (i.core.envName ≠ "" && i.core.envName ≠ "production" &&
      !(envMember i.core.config i.core.envName)) = false := by
    rcases henvok with hp | hm
    · rw [hp]
      simp
    · rw [hm]
      simp
  have hmc : mainCore i.core = mainCoreWd i.core w := by
    unfold mainCore
    rw [hwd, henv, hout, hguard]
    simp only [eq_self_iff_true, if_true, Bool.false_eq_true, if_false]
    rcases hdecl with hd | ⟨hd, hweq⟩
    · rw [hd]
    · subst hweq
      rw [hd]
  constructor
  · intro hdir
    have herr : mainCoreWd i.core w = Except.error (invalidWdMsg (normWd w)
        (FsPath.toString (i.core.cwd.join (FsPath.ofString (normWd w))))) := by
      simp [mainCoreWd, hdir]
    unfold runMain
    rw [hmc, herr]
    rfl
  · intro o ho
    obtain ⟨core, toks, hcore, hsp, heq⟩ := runMain_ok_inv ho
    rw [hmc] at hcore
    have hwdval := mainCoreWd_ok_workingDir hcore
    rw [heq]
    exact hwdval

/-- Witness for C7: the default working directory `.` of a production run
normalizes to the empty string and is emitted unchanged. -/
theorem claim7_working_dir_witness :
    Outputs.workingDir { workingDir := "", initArgs := [], planArgs := [], applyArgs := [] } =
      normWd "." :=
  (claim7_working_dir ⟨witnessCore, ""⟩ "." rfl rfl rfl ⟨_, rfl⟩ trivial trivial
      (Or.inl rfl) (Or.inr ⟨rfl, rfl⟩)).2
    { workingDir := "", initArgs := [], planArgs := [], applyArgs := [] } rfl

/-- The outputs actually produced by the C4 run of
`prepare_tf_branch_deploy.py`. -/
def claim4Outputs : Outputs :=
  { workingDir := "infra", initArgs := [],
    planArgs := ["-var-file=/repo/base.tfvars", "-var-file=/repo/staging.tfvars"],
    applyArgs := [] }

/-- Counterexample to C4 as stated for `prepare_tf_branch_deploy.py`: on the
claimed scenario the run succeeds but emits the two var-file paths as
absolute repository paths (the `relative_to` fallback), so neither claimed
`../`-relative entry appears in the emitted `plan_args`, whose emitted
string is the absolute-path join. -/
theorem claim4_roundtrip_counterexample :
    runMain claim4MainInput = Except.ok claim4Outputs ∧
    "-var-file=../base.tfvars" ∉ claim4Outputs.planArgs ∧
    "-var-file=../staging.tfvars" ∉ claim4Outputs.planArgs ∧
    claim4Outputs.planArgsStr =
      "-var-file=/repo/base.tfvars -var-file=/repo/staging.tfvars" :=
  ⟨rfl, by decide, by decide, rfl⟩

/-- C4 amended: on the claimed scenario the `prepare_terrachops.py` variant
emits exactly `plan_args = -var-file=../base.tfvars -var-file=../staging.tfvars`
(paths relative to `infra/`, defaults before environment entries), while the
`prepare_tf_branch_deploy.py` variant emits the same two entries, in the
same order, as absolute repository paths. -/
theorem claim4_roundtrip_amended :
    tc_main claim4TcInput = Except.ok
      { workingDir := "infra", initArgs := [],
        planArgs := ["-var-file=../base.tfvars", "-var-file=../staging.tfvars"],
        applyArgs := [] } ∧
    TcOutputs.planArgsStr
        { workingDir := "infra", initArgs := [],
          planArgs := ["-var-file=../base.tfvars", "-var-file=../staging.tfvars"],
          applyArgs := [] } =
      "-var-file=../base.tfvars -var-file=../staging.tfvars" ∧
    runMain claim4MainInput = Except.ok
      { workingDir := "infra", initArgs := [],
        planArgs := ["-var-file=/repo/base.tfvars", "-var-file=/repo/staging.tfvars"],
        applyArgs := [] } :=
  ⟨rfl, rfl, rfl⟩
